import Mathlib

/-!
Verification development for the goplus/ls repository.

Part A models the project cache kernel (the `gop` package: file store,
artifact cache, feature mask, snapshots).  The implementation of that
package is not among the available sources — only its test file is — so
its operations are modelled from the specification, pinned down by the
behaviour the tests demand.  Part B embeds the spx resource URI scheme
from `internal/server/spx_resource.go`, which is available in source form.
-/

namespace GoxlswModel

/-- Modelled from the spec: a file handle; the essential attribute is its
content byte sequence (`Content` in the source), rendered as a string. -/
structure FileImpl where
  content : String
  deriving DecidableEq, Repr

/-- Modelled from the spec: a Go error value.  `text` is what `Error()`
returns; `eid` is the allocation identity, so that two errors with equal
text but different allocations are distinguishable (Go interface
identity). -/
structure GoError where
  text : String
  eid : Nat
  deriving DecidableEq, Repr

/-- Modelled from the spec: the `fs.ErrNotExist` sentinel (`does-not-exist`). -/
def fsErrNotExist : GoError := ⟨"file does not exist", 0⟩

/-- Modelled from the spec: the `fs.ErrExist` sentinel (`already-exists`). -/
def fsErrExist : GoError := ⟨"file already exists", 1⟩

/-- Modelled from the spec: the `ErrUnknownKind` sentinel, textual form
`"unknown kind"`. -/
def ErrUnknownKind : GoError := ⟨"unknown kind", 2⟩

/-- Modelled from the spec: the payload of a derived artifact.  The
language front-end (parser, type checker, doc extractor) is an external
collaborator, so each artifact only records what the claims observe. -/
inductive Payload where
  | astOf (content : String)
  | pkgOf (name : String) (numFiles : Nat)
  | typeInfoOf (name : String)
  | pkgDocOf (name : String) (numFuncs : Nat)
  deriving DecidableEq, Repr

/-- Modelled from the spec: an artifact value.  `vid` is the allocation
identity of the value instance: a builder run allocates a fresh `vid`,
so equal `vid`s mean the very same instance. -/
structure Value where
  payload : Payload
  vid : Nat
  deriving DecidableEq, Repr

/-- Modelled from the spec: a cache entry holding the memoized result,
the memoized error and the generation at which it was built. -/
structure Entry where
  val : Option Value
  err : Option GoError
  gen : Nat
  deriving DecidableEq, Repr

/-- Modelled from the spec: the project state — file store, feature mask,
artifact cache keyed by `(kind, key)`, generation counter, and the
allocation counter `nextId` that stands for the heap allocator (fresh
identities for values and errors). -/
structure Project where
  files : List (String × FileImpl)
  feats : Nat
  cache : List ((String × String) × Entry)
  gen : Nat
  nextId : Nat
  deriving DecidableEq, Repr

/-- Association-list lookup (first binding wins, as in a Go map where at
most one binding per key exists). -/
def lookupA {α β : Type} [DecidableEq α] : List (α × β) → α → Option β
  | [], _ => none
  | kv :: rest, k => if kv.1 = k then some kv.2 else lookupA rest k

/-- Association-list removal of every binding of a key. -/
def removeAllA {α β : Type} [DecidableEq α] : List (α × β) → α → List (α × β)
  | [], _ => []
  | kv :: rest, k => if kv.1 = k then removeAllA rest k else kv :: removeAllA rest k

/-- Modelled from the spec: kind scope — `ast` is the only file-scope
kind; every other registered kind is project-scope. -/
def fileScoped (kind : String) : Prop := kind = "ast"

instance (kind : String) : Decidable (fileScoped kind) := by
  unfold fileScoped; infer_instance

/-- Modelled from the spec: invalidation after a mutation touching
`paths`.  Project-scope entries are always dropped; file-scope entries
are dropped exactly when their key path was touched. -/
def invalidate : List ((String × String) × Entry) → List String → List ((String × String) × Entry)
  | [], _ => []
  | kv :: rest, paths =>
    if fileScoped kv.1.1 ∧ kv.1.2 ∉ paths then kv :: invalidate rest paths
    else invalidate rest paths

/-- Modelled from the spec: entry lookup in the artifact cache. -/
def findEntry (c : List ((String × String) × Entry)) (kind key : String) : Option Entry :=
  lookupA c (kind, key)

/-- Modelled from the spec: publishing a built entry. -/
def insertEntry (c : List ((String × String) × Entry)) (kind key : String) (e : Entry) :
    List ((String × String) × Entry) :=
  ((kind, key), e) :: c

/-- Modelled from the spec: the feature bit of the AST kind. -/
def FeatAST : Nat := 1

/-- Modelled from the spec: the feature bit of the AST-package kind. -/
def FeatASTPkg : Nat := 2

/-- Modelled from the spec: the feature bit of the type-info kind. -/
def FeatTypeInfo : Nat := 4

/-- Modelled from the spec: the feature bit of the package-doc kind. -/
def FeatPkgDoc : Nat := 8

/-- Modelled from the spec: the full feature mask used by the tests. -/
def FeatAll : Nat := 15

/-- Modelled from the spec: `NewProject` with an initial file mapping and
a feature mask (the kind registry is fixed, so it is not a parameter). -/
def NewProject (files : List (String × FileImpl)) (feats : Nat) : Project :=
  ⟨files, feats, [], 0, 0⟩

/-- Modelled from the spec: `Snapshot` is a shallow clone sharing every
top-level container; the generation is frozen as it stands. -/
def Snapshot (p : Project) : Project :=
  ⟨p.files, p.feats, p.cache, p.gen, p.nextId⟩

/-- Allocation step: one fresh identity was handed out. -/
def bumpId (p : Project) : Project :=
  { p with nextId := p.nextId + 1 }

/-- Fresh allocation identity.  Identities `0`, `1`, `2` are reserved for
the error sentinels, so dynamic allocations start at `3`. -/
def freshId (p : Project) : Nat := p.nextId + 3

/-- Result of a cache query: optional value and optional error, as in the
Go `(any, error)` pair. -/
abbrev QueryRes := Option Value × Option GoError

/-- Modelled from the spec: the single-flight cached query.  If the
feature bit is unset the sentinel `ErrUnknownKind` is returned at once
without invoking the builder; a built entry is returned as stored; a
missing entry is built once, published, and returned. -/
def cachedQuery (kind key : String) (bit : Nat)
    (build : Project → QueryRes × Project) (p : Project) : QueryRes × Project :=
  if p.feats &&& bit = 0 then ((none, some ErrUnknownKind), p)
  else
    match findEntry p.cache kind key with
    | some e => ((e.val, e.err), p)
    | none =>
      ((build p).1,
        { (build p).2 with
            cache := insertEntry (build p).2.cache kind key
              ⟨(build p).1.1, (build p).1.2, (build p).2.gen⟩ })

/-- Modelled from the spec: the parser is an external collaborator taken
as given.  In the repository's tests the content `"echo 100"` parses and
`"100_err"` fails, so the model lets content fail to parse exactly when
it ends with `"_err"`. -/
def parseOK (content : String) : Bool :=
  decide (content.data.reverse.take 4 ≠ ['r', 'r', 'e', '_'])

/-- Modelled from the spec: the builder of the file-scope AST kind.  A
missing path yields the `does-not-exist` sentinel; a parse failure yields
a fresh builder error; success yields a fresh AST value recording the
content it was parsed from. -/
def astBuild (path : String) (p : Project) : QueryRes × Project :=
  match lookupA p.files path with
  | none => ((none, some fsErrNotExist), p)
  | some f =>
    if parseOK f.content then
      ((some ⟨.astOf f.content, freshId p⟩, none), bumpId p)
    else
      ((none, some ⟨"parse error", freshId p⟩), bumpId p)

/-- Modelled from the spec: `AST(path)` is the cached file-scope query of
the `ast` kind. -/
def AST (p : Project) (path : String) : QueryRes × Project :=
  cachedQuery "ast" path FeatAST (astBuild path) p

/-- Modelled from the spec: `FileCache(kind, path)`; `ast` is the only
registered file-scope kind, any other kind yields `ErrUnknownKind`. -/
def FileCache (p : Project) (kind path : String) : QueryRes × Project :=
  if kind = "ast" then AST p path
  else ((none, some ErrUnknownKind), p)

/-- Lexicographic comparison of character lists by code point. -/
def listLeB : List Char → List Char → Bool
  | [], _ => true
  | _ :: _, [] => false
  | a :: arest, b :: brest =>
    if a = b then listLeB arest brest else Nat.ble a.toNat b.toNat

/-- Lexicographic string order by code point. -/
def strLeB (a b : String) : Bool := listLeB a.data b.data

/-- Insertion into a sorted path list. -/
def insertSorted (x : String) : List String → List String
  | [] => [x]
  | y :: rest => if strLeB x y then x :: y :: rest else y :: insertSorted x rest

/-- Insertion sort of paths; AST iteration is deterministic in
lexicographic path order. -/
def sortPaths : List String → List String
  | [] => []
  | x :: rest => insertSorted x (sortPaths rest)

/-- The project's path set in lexicographic order. -/
def projPaths (p : Project) : List String :=
  sortPaths (p.files.map Prod.fst)

/-- Combine one AST query result with the results of the remaining
paths: a parse error becomes the surfaced (first) error, a parsed file
is prepended to the collected list. -/
def astCombine (path : String) (r : QueryRes)
    (acc : List (String × Value) × Option GoError) :
    List (String × Value) × Option GoError :=
  match r.2 with
  | some e => (acc.1, some e)
  | none =>
    match r.1 with
    | some v => ((path, v) :: acc.1, acc.2)
    | none => acc

/-- Modelled from the spec: building the AST of every path through the
cache, collecting the parsed files in order and surfacing the first
error encountered. -/
def astFold : List String → Project → (List (String × Value) × Option GoError) × Project
  | [], p => (([], none), p)
  | path :: rest, p =>
    (astCombine path (AST p path).1 (astFold rest (AST p path).2).1,
      (astFold rest (AST p path).2).2)

/-- Modelled from the spec: the builder of the project-scope AST-package
kind.  It re-enters the cache for the AST of every file; any parse error
is surfaced, otherwise a fresh merged-package value named `"main"` is
produced. -/
def astPkgBuild (p : Project) : QueryRes × Project :=
  match (astFold (projPaths p) p).1.2 with
  | some e => ((none, some e), (astFold (projPaths p) p).2)
  | none =>
    ((some ⟨.pkgOf "main" (astFold (projPaths p) p).1.1.length,
        freshId (astFold (projPaths p) p).2⟩, none),
      bumpId (astFold (projPaths p) p).2)

/-- Modelled from the spec: the cached project-scope query of the
AST-package kind. -/
def ASTPkgQ (p : Project) : QueryRes × Project :=
  cachedQuery "astPkg" "" FeatASTPkg astPkgBuild p

/-- Modelled from the spec: `ASTFiles()` — the ordered list of
`(path, syntax)` pairs with a merged error if any parse failed. -/
def ASTFiles (p : Project) : (List (String × Value) × Option GoError) × Project :=
  astFold (projPaths p) p

/-- Modelled from the spec: `ASTPackage()`.  When the feature bit is off
it reports an error whose text is `"unknown kind"` but whose identity is
a fresh allocation, not the `ErrUnknownKind` sentinel; otherwise it is
the cached AST-package query. -/
def ASTPackage (p : Project) : QueryRes × Project :=
  if p.feats &&& FeatASTPkg = 0 then
    ((none, some ⟨"unknown kind", freshId p⟩), bumpId p)
  else ASTPkgQ p

/-- Modelled from the spec: the builder of the project-scope type-info
kind; it depends on the AST package. -/
def typeInfoBuild (p : Project) : QueryRes × Project :=
  match (ASTPkgQ p).1.2 with
  | some e => ((none, some e), (ASTPkgQ p).2)
  | none => ((some ⟨.typeInfoOf "main", freshId (ASTPkgQ p).2⟩, none), bumpId (ASTPkgQ p).2)

/-- Modelled from the spec: `TypeInfo()` is the cached project-scope
query of the type-info kind. -/
def TypeInfo (p : Project) : QueryRes × Project :=
  cachedQuery "typeInfo" "" FeatTypeInfo typeInfoBuild p

/-- Modelled from the spec: the builder of the package-doc kind; it goes
through `ASTPackage`, so with the feature mask empty it reports the
wrapped `"unknown kind"` text rather than the sentinel. -/
def buildPkgDoc (p : Project) : QueryRes × Project :=
  match (ASTPackage p).1.2 with
  | some e => ((none, some e), (ASTPackage p).2)
  | none => ((some ⟨.pkgDocOf "main" 0, freshId (ASTPackage p).2⟩, none), bumpId (ASTPackage p).2)

/-- Modelled from the spec: `PkgDoc()` is the cached project-scope query
of the package-doc kind; its own feature gate returns the sentinel
before the builder could run. -/
def PkgDoc (p : Project) : QueryRes × Project :=
  cachedQuery "pkgDoc" "" FeatPkgDoc buildPkgDoc p

/-- Modelled from the spec: `Cache(kind)` dispatches over the registered
project-scope kinds; an unregistered kind yields `ErrUnknownKind`. -/
def Cache (p : Project) (kind : String) : QueryRes × Project :=
  if kind = "astPkg" then ASTPkgQ p
  else if kind = "typeInfo" then TypeInfo p
  else if kind = "pkgDoc" then PkgDoc p
  else ((none, some ErrUnknownKind), p)

/-- Modelled from the spec: `PutFile` replaces or inserts a file, bumps
the generation and invalidates the touched path. -/
def PutFile (p : Project) (path : String) (f : FileImpl) : Project :=
  { p with
      files := (path, f) :: removeAllA p.files path,
      gen := p.gen + 1,
      cache := invalidate p.cache [path] }

/-- Modelled from the spec: `DeleteFile` removes a path, returning
`does-not-exist` when it is absent; on success it bumps the generation
and invalidates the touched path. -/
def DeleteFile (p : Project) (path : String) : Option GoError × Project :=
  match lookupA p.files path with
  | none => (some fsErrNotExist, p)
  | some _ =>
    (none,
      { p with
          files := removeAllA p.files path,
          gen := p.gen + 1,
          cache := invalidate p.cache [path] })

/-- Modelled from the spec: `Rename(from, to)` fails with
`does-not-exist` when `from` is absent and with `already-exists` when
`to` is present (no implicit overwrite); on success it relocates the file
in one logical mutation. -/
def Rename (p : Project) (a b : String) : Option GoError × Project :=
  match lookupA p.files a with
  | none => (some fsErrNotExist, p)
  | some f =>
    match lookupA p.files b with
    | some _ => (some fsErrExist, p)
    | none =>
      (none,
        { p with
            files := (b, f) :: removeAllA p.files a,
            gen := p.gen + 1,
            cache := invalidate p.cache [a, b] })

/-- Modelled from the spec: `UpdateFiles(m)` makes the file store exactly
`m` (delete every path not in `m`, put every path in `m`), with a single
generation bump; invalidation sees the union of old and new paths. -/
def UpdateFiles (p : Project) (m : List (String × FileImpl)) : Project :=
  { p with
      files := m,
      gen := p.gen + 1,
      cache := invalidate p.cache (p.files.map Prod.fst ++ m.map Prod.fst) }

/-- Visit paths until the visitor asks to stop; the element on which the
visitor returns `false` is the last one visited. -/
def visitPaths (f : String → Bool) : List String → List String
  | [] => []
  | x :: rest => if f x then x :: visitPaths f rest else [x]

/-- Modelled from the spec: `RangeFiles` iterates the current paths with
a visitor whose boolean result means continue.  Returns the visited
paths. -/
def RangeFiles (p : Project) (f : String → Bool) : List String :=
  visitPaths f (p.files.map Prod.fst)

/-- Visit `(path, file)` pairs until the visitor asks to stop. -/
def visitItems (f : String → FileImpl → Bool) :
    List (String × FileImpl) → List (String × FileImpl)
  | [] => []
  | kv :: rest => if f kv.1 kv.2 then kv :: visitItems f rest else [kv]

/-- Modelled from the spec: `RangeFileContents` iterates `(path, file)`
pairs with a visitor whose boolean result means continue.  Returns the
visited pairs. -/
def RangeFileContents (p : Project) (f : String → FileImpl → Bool) :
    List (String × FileImpl) :=
  visitItems f p.files

/-- Modelled from the spec and from the callers in
`gop/goputil/goputil.go` (`RangeASTSpecs`, `IsShadow`): `RangeASTFiles`
takes a visitor that returns nothing — not a boolean — so the traversal
always covers every parsed file in path order and cannot be cut short.
Returns the visited `(path, syntax)` pairs. -/
def RangeASTFiles (p : Project) (_visitor : String → Value → Unit) :
    List (String × Value) × Project :=
  ((ASTFiles p).1.1, (ASTFiles p).2)

/-- The spx resource ID, from `internal/server/spx_resource.go`: one
constructor per Go struct implementing `SpxResourceID`. -/
inductive SpxResourceID where
  | backdrop (BackdropName : String)
  | sound (SoundName : String)
  | sprite (SpriteName : String)
  | widget (WidgetName : String)
  | spriteCostume (SpriteName CostumeName : String)
  | spriteAnimation (SpriteName AnimationName : String)
  deriving DecidableEq, Repr

/-- URI construction, from the `URI()` methods of
`internal/server/spx_resource.go`. -/
def SpxResourceID.uri : SpxResourceID → String
  | .backdrop n => "spx://resources/backdrops/" ++ n
  | .sound n => "spx://resources/sounds/" ++ n
  | .sprite n => "spx://resources/sprites/" ++ n
  | .widget n => "spx://resources/widgets/" ++ n
  | .spriteCostume s c => "spx://resources/sprites/" ++ (s ++ ("/costumes/" ++ c))
  | .spriteAnimation s a => "spx://resources/sprites/" ++ (s ++ ("/animations/" ++ a))

/-- Split a character list on a separator, as Go `strings.Split` with a
one-character separator. -/
def charSplit (sep : Char) : List Char → List (List Char)
  | [] => [[]]
  | a :: rest =>
    let r := charSplit sep rest
    if a = sep then [] :: r
    else
      match r with
      | [] => [[a]]
      | h :: t => (a :: h) :: t

/-- Drop one leading slash, as Go `strings.TrimPrefix(s, "/")` on the
character list. -/
def trimLeadSlash : List Char → List Char
  | '/' :: rest => rest
  | l => l

/-- Component normalization of Go `path.Clean`: empty and `.` elements
vanish, `..` pops the preceding element (and vanishes at the root). -/
def cleanComps (rooted : Bool) : List (List Char) → List (List Char) → List (List Char)
  | acc, [] => acc.reverse
  | acc, c :: rest =>
    if c = [] ∨ c = ['.'] then cleanComps rooted acc rest
    else if c = ['.', '.'] then
      match acc with
      | [] =>
        if rooted then cleanComps rooted [] rest
        else cleanComps rooted [['.', '.']] rest
      | a :: acctail =>
        if a = ['.', '.'] then cleanComps rooted (c :: a :: acctail) rest
        else cleanComps rooted acctail rest
    else cleanComps rooted (c :: acc) rest

/-- Join components with slashes. -/
def joinSlash : List (List Char) → List Char
  | [] => []
  | x :: rest =>
    match rest with
    | [] => x
    | _ => x ++ '/' :: joinSlash rest

/-- Go `path.Clean`, modelled from its documented algorithm: collapse
slashes, drop `.` elements, resolve `..`, no trailing slash, `"."` for
the empty result. -/
def pathClean (p : String) : String :=
  match p.data with
  | [] => "."
  | c :: cs =>
    let rooted := c = '/'
    let comps := cleanComps (decide rooted) [] (charSplit '/' (c :: cs))
    let joined := joinSlash comps
    if rooted then ⟨'/' :: joined⟩
    else if joined = [] then "." else ⟨joined⟩

/-- Value of a hexadecimal digit, as Go `net/url`'s `unhex`. -/
def hexVal (c : Char) : Option Nat :=
  if '0' ≤ c ∧ c ≤ '9' then some (c.toNat - '0'.toNat)
  else if 'a' ≤ c ∧ c ≤ 'f' then some (c.toNat - 'a'.toNat + 10)
  else if 'A' ≤ c ∧ c ≤ 'F' then some (c.toNat - 'A'.toNat + 10)
  else none

/-- Percent-decoding of a URL path, as Go `net/url`'s `unescape`: a `%`
must be followed by two hexadecimal digits, otherwise parsing fails with
an invalid-escape error. -/
def percentDecode : List Char → Option (List Char)
  | [] => some []
  | '%' :: a :: b :: rest =>
    match hexVal a, hexVal b with
    | some ha, some hb =>
      match percentDecode rest with
      | some d => some (Char.ofNat (16 * ha + hb) :: d)
      | none => none
    | _, _ => none
  | '%' :: _ => none
  | c :: rest =>
    match percentDecode rest with
    | some d => some (c :: d)
    | none => none

/-- Go `net/url.Parse`, modelled for the authority-form URIs this file
handles: URLs containing ASCII control characters are rejected, the
fragment (everything after the first `#`) and the query (after the
first `?`) are split off and do not reach the path, and the path is
percent-decoded, rejecting invalid escapes.  Returns
`(scheme, host, path)`. -/
def urlParse (s : String) : Option (String × String × String) :=
  let cs := s.data
  if cs.any (fun c => decide (c.toNat < 32 ∨ c.toNat = 127)) then none
  else
    let beforeFrag := cs.takeWhile (fun c => c ≠ '#')
    let scheme := beforeFrag.takeWhile (fun c => c ≠ ':')
    match beforeFrag.drop scheme.length with
    | ':' :: '/' :: '/' :: rest =>
      let host := rest.takeWhile (fun c => c ≠ '/' ∧ c ≠ '?')
      let rawPath := (rest.drop host.length).takeWhile (fun c => c ≠ '?')
      match percentDecode rawPath with
      | none => none
      | some upath => some (⟨scheme⟩, ⟨host⟩, ⟨upath⟩)
    | _ => none

/-- Dispatch of `ParseSpxResourceURI` after URL parsing, from
`internal/server/spx_resource.go`: split the slash-trimmed path, reject
when the scheme or host is wrong, the path is not `path.Clean`-normal,
or fewer than two parts remain; then dispatch on the first part. -/
def parseSpxURL (shp : String × String × String) : Option SpxResourceID :=
  let upath := shp.2.2
  let parts := (charSplit '/' (trimLeadSlash upath.data)).map (fun l => String.mk l)
  let n := parts.length
  if shp.1 ≠ "spx" ∨ shp.2.1 ≠ "resources" ∨ pathClean upath ≠ upath ∨ n < 2 then none
  else
    let p0 := parts.getD 0 ""
    let p1 := parts.getD 1 ""
    if p0 = "backdrops" then some (.backdrop p1)
    else if p0 = "sounds" then some (.sound p1)
    else if p0 = "sprites" then
      if n = 2 then some (.sprite p1)
      else if n > 3 then
        let p2 := parts.getD 2 ""
        let p3 := parts.getD 3 ""
        if p2 = "costumes" then some (.spriteCostume p1 p3)
        else if p2 = "animations" then some (.spriteAnimation p1 p3)
        else none
      else none
    else if p0 = "widgets" then some (.widget p1)
    else none

/-- `ParseSpxResourceURI`, from `internal/server/spx_resource.go`:
URL-parse the URI, then dispatch on the parsed parts; a URI the URL
parser rejects yields an error (`none`). -/
def ParseSpxResourceURI (uri : String) : Option SpxResourceID :=
  match urlParse uri with
  | none => none
  | some shp => parseSpxURL shp

/-- Go paths of the six URI shapes, as checked against `path.Clean` by
`ParseSpxResourceURI`. -/
def uriPath : SpxResourceID → String
  | .backdrop n => "/backdrops/" ++ n
  | .sound n => "/sounds/" ++ n
  | .sprite n => "/sprites/" ++ n
  | .widget n => "/widgets/" ++ n
  | .spriteCostume s c => "/sprites/" ++ (s ++ ("/costumes/" ++ c))
  | .spriteAnimation s a => "/sprites/" ++ (s ++ ("/animations/" ++ a))

/-- A name component that is non-empty and contains no slash. -/
def nameOK (s : String) : Prop := s ≠ "" ∧ '/' ∉ s.data

instance (s : String) : Decidable (nameOK s) := by
  unfold nameOK
  infer_instance

/-- All name components of a resource ID are non-empty and slash-free. -/
def idNamesOK : SpxResourceID → Prop
  | .backdrop n => nameOK n
  | .sound n => nameOK n
  | .sprite n => nameOK n
  | .widget n => nameOK n
  | .spriteCostume s c => nameOK s ∧ nameOK c
  | .spriteAnimation s a => nameOK s ∧ nameOK a

instance (id : SpxResourceID) : Decidable (idNamesOK id) := by
  cases id <;> simp only [idNamesOK] <;> infer_instance

/-! Helper lemmas about the association lists, invalidation and the
cached query discipline. -/

theorem Snapshot_eq (p : Project) : Snapshot p = p := by
  cases p; rfl

theorem lookupA_removeAllA {α β : Type} [DecidableEq α] (l : List (α × β)) (k : α) :
    lookupA (removeAllA l k) k = none := by
  induction l with
  | nil => rfl
  | cons kv rest ih =>
    by_cases h : kv.1 = k
    · simp [removeAllA, h, ih]
    · simp [removeAllA, lookupA, h, ih]

theorem mem_of_lookupA {α β : Type} [DecidableEq α] (l : List (α × β)) (k : α) (v : β)
    (h : lookupA l k = some v) : (k, v) ∈ l := by
  induction l with
  | nil => simp [lookupA] at h
  | cons kv rest ih =>
    simp only [lookupA] at h
    by_cases hk : kv.1 = k
    · rw [if_pos hk] at h
      have : kv = (k, v) := by
        cases kv
        simp only [Option.some.injEq] at h
        simp_all
      simp [this]
    · rw [if_neg hk] at h
      exact List.mem_cons_of_mem _ (ih h)

theorem mem_keys_of_lookupA {α β : Type} [DecidableEq α] (l : List (α × β)) (k : α) (v : β)
    (h : lookupA l k = some v) : k ∈ l.map Prod.fst := by
  have := mem_of_lookupA l k v h
  exact List.mem_map_of_mem Prod.fst this

theorem lookupA_none_of_not_mem {α β : Type} [DecidableEq α] (l : List (α × β)) (k : α)
    (h : k ∉ l.map Prod.fst) : lookupA l k = none := by
  cases hl : lookupA l k with
  | none => rfl
  | some v => exact absurd (mem_keys_of_lookupA l k v hl) h

theorem findEntry_insert_self (c : List ((String × String) × Entry)) (kind key : String)
    (e : Entry) : findEntry (insertEntry c kind key e) kind key = some e := by
  simp [findEntry, insertEntry, lookupA]

theorem mem_of_invalidate (c : List ((String × String) × Entry)) (paths : List String)
    (x : (String × String) × Entry) (h : x ∈ invalidate c paths) : x ∈ c := by
  induction c with
  | nil => simp [invalidate] at h
  | cons kv rest ih =>
    simp only [invalidate] at h
    split at h
    · rcases List.mem_cons.mp h with h1 | h2
      · simp [h1]
      · exact List.mem_cons_of_mem _ (ih h2)
    · exact List.mem_cons_of_mem _ (ih h)

theorem not_touched_of_mem_invalidate (c : List ((String × String) × Entry))
    (paths : List String) (x : (String × String) × Entry) (h : x ∈ invalidate c paths) :
    x.1.2 ∉ paths := by
  induction c with
  | nil => simp [invalidate] at h
  | cons kv rest ih =>
    simp only [invalidate] at h
    split at h
    next hcond =>
      rcases List.mem_cons.mp h with h1 | h2
      · subst h1
        exact hcond.2
      · exact ih h2
    next => exact ih h

theorem findEntry_invalidate_of_mem (c : List ((String × String) × Entry))
    (paths : List String) (kind key : String) (h : key ∈ paths) :
    findEntry (invalidate c paths) kind key = none := by
  cases hf : findEntry (invalidate c paths) kind key with
  | none => rfl
  | some e =>
    exfalso
    have hm := mem_of_lookupA _ _ _ hf
    have := not_touched_of_mem_invalidate c paths ((kind, key), e) hm
    exact this h

theorem findEntry_invalidate_some (c : List ((String × String) × Entry))
    (paths : List String) (kind key : String) (e : Entry)
    (h : findEntry (invalidate c paths) kind key = some e) :
    ((kind, key), e) ∈ c ∧ key ∉ paths := by
  have hm := mem_of_lookupA _ _ _ h
  exact ⟨mem_of_invalidate c paths _ hm,
    not_touched_of_mem_invalidate c paths ((kind, key), e) hm⟩

theorem cachedQuery_hit (kind key : String) (bit : Nat)
    (build : Project → QueryRes × Project) (p : Project) (e : Entry)
    (hbit : ¬ p.feats &&& bit = 0) (hent : findEntry p.cache kind key = some e) :
    cachedQuery kind key bit build p = ((e.val, e.err), p) := by
  unfold cachedQuery
  rw [if_neg hbit, hent]

theorem cachedQuery_miss (kind key : String) (bit : Nat)
    (build : Project → QueryRes × Project) (p : Project)
    (hbit : ¬ p.feats &&& bit = 0) (hent : findEntry p.cache kind key = none) :
    cachedQuery kind key bit build p =
      ((build p).1,
        { (build p).2 with
            cache := insertEntry (build p).2.cache kind key
              ⟨(build p).1.1, (build p).1.2, (build p).2.gen⟩ }) := by
  unfold cachedQuery
  rw [if_neg hbit, hent]

theorem cachedQuery_gate (kind key : String) (bit : Nat)
    (build : Project → QueryRes × Project) (p : Project)
    (hbit : p.feats &&& bit = 0) :
    cachedQuery kind key bit build p = ((none, some ErrUnknownKind), p) := by
  unfold cachedQuery
  rw [if_pos hbit]

theorem cachedQuery_feats (kind key : String) (bit : Nat)
    (build : Project → QueryRes × Project) (p : Project)
    (hb : ((build p).2).feats = p.feats) :
    ((cachedQuery kind key bit build p).2).feats = p.feats := by
  unfold cachedQuery
  split
  · rfl
  · split
    · rfl
    · simpa using hb

theorem cachedQuery_mem (kind key : String) (bit : Nat)
    (build : Project → QueryRes × Project) (p : Project)
    (hf : ((build p).2).feats = p.feats) :
    cachedQuery kind key bit build ((cachedQuery kind key bit build p).2) =
      cachedQuery kind key bit build p := by
  by_cases hbit : p.feats &&& bit = 0
  · rw [cachedQuery_gate kind key bit build p hbit]
    exact cachedQuery_gate kind key bit build p hbit
  · cases hent : findEntry p.cache kind key with
    | some e =>
      rw [cachedQuery_hit kind key bit build p e hbit hent]
      exact cachedQuery_hit kind key bit build p e hbit hent
    | none =>
      rw [cachedQuery_miss kind key bit build p hbit hent]
      exact cachedQuery_hit kind key bit build _
        ⟨(build p).1.1, (build p).1.2, (build p).2.gen⟩
        (by simpa [hf] using hbit) (findEntry_insert_self _ kind key _)

theorem astBuild_feats (path : String) (p : Project) :
    ((astBuild path p).2).feats = p.feats := by
  unfold astBuild
  cases lookupA p.files path with
  | none => rfl
  | some f =>
    by_cases h : parseOK f.content = true <;> simp [h, bumpId]

theorem AST_feats (p : Project) (path : String) : ((AST p path).2).feats = p.feats :=
  cachedQuery_feats _ _ _ _ _ (astBuild_feats path p)

theorem astFold_feats (paths : List String) : ∀ p : Project,
    ((astFold paths p).2).feats = p.feats := by
  induction paths with
  | nil => intro p; rfl
  | cons path rest ih =>
    intro p
    show ((astFold rest (AST p path).2).2).feats = p.feats
    rw [ih (AST p path).2, AST_feats]

theorem astPkgBuild_feats (p : Project) : ((astPkgBuild p).2).feats = p.feats := by
  unfold astPkgBuild
  split
  · simpa using astFold_feats (projPaths p) p
  · simpa [bumpId] using astFold_feats (projPaths p) p

theorem ASTPkgQ_feats (p : Project) : ((ASTPkgQ p).2).feats = p.feats :=
  cachedQuery_feats _ _ _ _ _ (astPkgBuild_feats p)

theorem ASTPackage_feats (p : Project) : ((ASTPackage p).2).feats = p.feats := by
  unfold ASTPackage
  split
  · rfl
  · exact ASTPkgQ_feats p

theorem typeInfoBuild_feats (p : Project) : ((typeInfoBuild p).2).feats = p.feats := by
  unfold typeInfoBuild
  split
  · simpa using ASTPkgQ_feats p
  · simpa [bumpId] using ASTPkgQ_feats p

theorem buildPkgDoc_feats (p : Project) : ((buildPkgDoc p).2).feats = p.feats := by
  unfold buildPkgDoc
  split
  · simpa using ASTPackage_feats p
  · simpa [bumpId] using ASTPackage_feats p

/-! Claim theorems. -/

/-- C3: for any kind and key, two queries of the same `(kind, key)` on
the same project with no mutation between them return the same result —
value and error alike, by identity (the identities `vid`/`eid` are part
of the compared results) — and leave the project state unchanged, so the
builder is not re-run until a mutation invalidates the entry. -/
theorem c3_memoization (p : Project) (kind path : String) :
    FileCache ((FileCache p kind path).2) kind path = FileCache p kind path ∧
    Cache ((Cache p kind).2) kind = Cache p kind := by
  constructor
  · by_cases hk : kind = "ast"
    · subst hk
      simp only [FileCache, if_pos rfl]
      exact cachedQuery_mem _ _ _ _ _ (astBuild_feats path p)
    · simp [FileCache, hk]
  · by_cases h1 : kind = "astPkg"
    · subst h1
      simp only [Cache, if_pos rfl]
      exact cachedQuery_mem _ _ _ _ _ (astPkgBuild_feats p)
    · by_cases h2 : kind = "typeInfo"
      · subst h2
        simp only [Cache, if_neg (by decide : ¬ ("typeInfo" : String) = "astPkg"), if_pos rfl]
        exact cachedQuery_mem _ _ _ _ _ (typeInfoBuild_feats p)
      · by_cases h3 : kind = "pkgDoc"
        · subst h3
          simp only [Cache, if_neg (by decide : ¬ ("pkgDoc" : String) = "astPkg"),
            if_neg (by decide : ¬ ("pkgDoc" : String) = "typeInfo"), if_pos rfl]
          exact cachedQuery_mem _ _ _ _ _ (buildPkgDoc_feats p)
        · simp [Cache, h1, h2, h3]

/-- C6: `Rename(a, b)` returns `already-exists` when `b` is present and
`does-not-exist` when `a` is absent; after a successful rename the source
path is gone, so repeating the same rename returns `does-not-exist`. -/
theorem c6_rename_exclusivity (p : Project) (a b : String) (f g : FileImpl) :
    (lookupA p.files a = some f → lookupA p.files b = some g →
      (Rename p a b).1 = some fsErrExist) ∧
    (lookupA p.files a = none → (Rename p a b).1 = some fsErrNotExist) ∧
    (lookupA p.files a = some f → lookupA p.files b = none →
      (Rename ((Rename p a b).2) a b).1 = some fsErrNotExist) := by
  refine ⟨?_, ?_, ?_⟩
  · intro ha hb
    simp [Rename, ha, hb]
  · intro ha
    simp [Rename, ha]
  · intro ha hb
    have hab : ¬ a = b := by
      intro e
      rw [e, hb] at ha
      cases ha
    have hrest : lookupA ((b, f) :: removeAllA p.files a) a = none := by
      simp only [lookupA]
      rw [if_neg (by simpa using fun e => hab e.symm)]
      exact lookupA_removeAllA p.files a
    simp [Rename, ha, hb, hrest]

/-- Concrete project for the C6 witness. -/
def pC6 : Project :=
  NewProject [("main.spx", ⟨"echo 100"⟩), ("bar.spx", ⟨"echo 200"⟩)] FeatAll

/-- Witness for C6 on the test scenario: rename onto an existing path,
rename from an absent path, and a repeated rename. -/
theorem c6_rename_exclusivity_w :
    (Rename pC6 "main.spx" "bar.spx").1 = some fsErrExist ∧
    (Rename pC6 "nope.spx" "bar.spx").1 = some fsErrNotExist ∧
    (Rename ((Rename pC6 "main.spx" "foo.spx").2) "main.spx" "foo.spx").1 =
      some fsErrNotExist :=
  ⟨(c6_rename_exclusivity pC6 "main.spx" "bar.spx" ⟨"echo 100"⟩ ⟨"echo 200"⟩).1
      (by decide) (by decide),
   (c6_rename_exclusivity pC6 "nope.spx" "bar.spx" ⟨""⟩ ⟨""⟩).2.1 (by decide),
   (c6_rename_exclusivity pC6 "main.spx" "foo.spx" ⟨"echo 100"⟩ ⟨""⟩).2.2
      (by decide) (by decide)⟩

/-- C7: for a present path, the lookup succeeds, a first delete succeeds,
a second delete of the now-absent path returns `does-not-exist`, and
lookups after the delete also fail. -/
theorem DeleteFile_absent (q : Project) (path : String)
    (h : lookupA q.files path = none) :
    (DeleteFile q path).1 = some fsErrNotExist := by
  simp [DeleteFile, h]

theorem c7_delete_idempotent (p : Project) (path : String) (f : FileImpl)
    (h : lookupA p.files path = some f) :
    (DeleteFile p path).1 = none ∧
    lookupA ((DeleteFile p path).2).files path = none ∧
    (DeleteFile ((DeleteFile p path).2) path).1 = some fsErrNotExist := by
  have h2 : lookupA ((DeleteFile p path).2).files path = none := by
    simp only [DeleteFile, h]
    exact lookupA_removeAllA p.files path
  exact ⟨by simp [DeleteFile, h], h2, DeleteFile_absent _ path h2⟩

/-- C4: with an empty feature mask every `Cache`, `FileCache`,
`TypeInfo` and `PkgDoc` request returns the `ErrUnknownKind` sentinel
itself, while `ASTPackage` reports an error whose text is
`"unknown kind"` but whose identity differs from the sentinel. -/
theorem c4_feature_gating (p : Project) (kind path : String) (h : p.feats = 0) :
    FileCache p kind path = ((none, some ErrUnknownKind), p) ∧
    Cache p kind = ((none, some ErrUnknownKind), p) ∧
    TypeInfo p = ((none, some ErrUnknownKind), p) ∧
    PkgDoc p = ((none, some ErrUnknownKind), p) ∧
    (ASTPackage p).1.2 = some ⟨"unknown kind", freshId p⟩ ∧
    (⟨"unknown kind", freshId p⟩ : GoError).text = ErrUnknownKind.text ∧
    (⟨"unknown kind", freshId p⟩ : GoError) ≠ ErrUnknownKind := by
  have hg : ∀ bit, p.feats &&& bit = 0 := by
    intro bit
    rw [h]
    exact Nat.zero_and bit
  refine ⟨?_, ?_, ?_, ?_, ?_, rfl, ?_⟩
  · by_cases hk : kind = "ast"
    · subst hk
      simp only [FileCache, if_pos rfl, AST]
      exact cachedQuery_gate _ _ _ _ p (hg _)
    · simp [FileCache, hk]
  · by_cases h1 : kind = "astPkg"
    · subst h1
      simp only [Cache, if_pos rfl, ASTPkgQ]
      exact cachedQuery_gate _ _ _ _ p (hg _)
    · by_cases h2 : kind = "typeInfo"
      · subst h2
        simp only [Cache, if_neg (by decide : ¬ ("typeInfo" : String) = "astPkg"),
          if_pos rfl, TypeInfo]
        exact cachedQuery_gate _ _ _ _ p (hg _)
      · by_cases h3 : kind = "pkgDoc"
        · subst h3
          simp only [Cache, if_neg (by decide : ¬ ("pkgDoc" : String) = "astPkg"),
            if_neg (by decide : ¬ ("pkgDoc" : String) = "typeInfo"), if_pos rfl, PkgDoc]
          exact cachedQuery_gate _ _ _ _ p (hg _)
        · simp [Cache, h1, h2, h3]
  · exact cachedQuery_gate _ _ _ _ p (hg _)
  · exact cachedQuery_gate _ _ _ _ p (hg _)
  · unfold ASTPackage
    rw [if_pos (hg _)]
  · intro heq
    have : freshId p = 2 := congrArg GoError.eid heq
    simp only [freshId] at this
    omega

/-- Concrete project for the C4 witness: the test project with the empty
feature mask. -/
def pC4 : Project := NewProject [("main.spx", ⟨"100_err"⟩)] 0

/-- Witness for C4 at kind `typeInfo` and path `main.spx`. -/
theorem c4_feature_gating_w :
    pC4.feats = 0 ∧
    (FileCache pC4 "typeInfo" "main.spx" = ((none, some ErrUnknownKind), pC4) ∧
     Cache pC4 "typeInfo" = ((none, some ErrUnknownKind), pC4) ∧
     TypeInfo pC4 = ((none, some ErrUnknownKind), pC4) ∧
     PkgDoc pC4 = ((none, some ErrUnknownKind), pC4) ∧
     (ASTPackage pC4).1.2 = some ⟨"unknown kind", freshId pC4⟩ ∧
     (⟨"unknown kind", freshId pC4⟩ : GoError).text = ErrUnknownKind.text ∧
     (⟨"unknown kind", freshId pC4⟩ : GoError) ≠ ErrUnknownKind) :=
  ⟨rfl, c4_feature_gating pC4 "typeInfo" "main.spx" rfl⟩

/-- C2: if the live project holds a built entry for a `(kind, key)` at
snapshot time — here the claim's own examples, the `ast` entry of a path
and the `typeInfo` entry — the snapshot query and the live query both
return exactly the stored value instance and stored error. -/
theorem c2_snapshot_identity (p : Project) (path : String) (e et : Entry)
    (hfA : ¬ p.feats &&& FeatAST = 0)
    (heA : findEntry p.cache "ast" path = some e)
    (hfT : ¬ p.feats &&& FeatTypeInfo = 0)
    (heT : findEntry p.cache "typeInfo" "" = some et) :
    AST (Snapshot p) path = ((e.val, e.err), Snapshot p) ∧
    AST p path = ((e.val, e.err), p) ∧
    TypeInfo (Snapshot p) = ((et.val, et.err), Snapshot p) ∧
    TypeInfo p = ((et.val, et.err), p) := by
  rw [Snapshot_eq]
  exact ⟨cachedQuery_hit _ _ _ _ p e hfA heA, cachedQuery_hit _ _ _ _ p e hfA heA,
    cachedQuery_hit _ _ _ _ p et hfT heT, cachedQuery_hit _ _ _ _ p et hfT heT⟩

/-- Concrete project for the C2 witness: the test project after one
`AST` query and one `TypeInfo` query, so both entries are built. -/
def pC2 : Project :=
  (TypeInfo ((AST (NewProject [("main.gop", ⟨"echo 100"⟩)] FeatAll) "main.gop").2)).2

/-- Built `ast` entry of the C2 witness project. -/
def eC2 : Entry := ⟨some ⟨.astOf "echo 100", 3⟩, none, 0⟩

/-- Built `typeInfo` entry of the C2 witness project. -/
def etC2 : Entry := ⟨some ⟨.typeInfoOf "main", 5⟩, none, 0⟩

/-- Witness for C2 on the test scenario. -/
theorem c2_snapshot_identity_w :
    findEntry pC2.cache "ast" "main.gop" = some eC2 ∧
    findEntry pC2.cache "typeInfo" "" = some etC2 ∧
    (AST (Snapshot pC2) "main.gop" = ((eC2.val, eC2.err), Snapshot pC2) ∧
     AST pC2 "main.gop" = ((eC2.val, eC2.err), pC2) ∧
     TypeInfo (Snapshot pC2) = ((etC2.val, etC2.err), Snapshot pC2) ∧
     TypeInfo pC2 = ((etC2.val, etC2.err), pC2)) :=
  ⟨by decide, by decide,
   c2_snapshot_identity pC2 "main.gop" eC2 etC2 (by decide) (by decide) (by decide)
     (by decide)⟩

/-- C1: with an `ast` entry built for `path`, a snapshot keeps answering
from the frozen entry; deleting `path` on the live project makes the
live query rebuild and report `does-not-exist`; putting a new file at
`path` on the snapshot rebuilds only there, with a fresh value of the
new content; and the live project still answers from its own state. -/
theorem c1_snapshot_isolation (p : Project) (path : String) (e : Entry) (f : FileImpl)
    (hfeat : ¬ p.feats &&& FeatAST = 0)
    (hent : findEntry p.cache "ast" path = some e)
    (hfile : lookupA p.files path = some f) :
    AST (Snapshot p) path = ((e.val, e.err), Snapshot p) ∧
    (AST ((DeleteFile p path).2) path).1 = (none, some fsErrNotExist) ∧
    (∀ fnew : FileImpl, parseOK fnew.content = true →
      (AST (PutFile (Snapshot p) path fnew) path).1 =
        (some ⟨.astOf fnew.content, freshId p⟩, none)) ∧
    AST p path = ((e.val, e.err), p) := by
  have hmiss : findEntry (invalidate p.cache [path]) "ast" path = none :=
    findEntry_invalidate_of_mem p.cache [path] "ast" path (by simp)
  refine ⟨?_, ?_, ?_, cachedQuery_hit _ _ _ _ p e hfeat hent⟩
  · rw [Snapshot_eq]
    exact cachedQuery_hit _ _ _ _ p e hfeat hent
  · have hdel : (DeleteFile p path).2 =
        { p with
            files := removeAllA p.files path,
            gen := p.gen + 1,
            cache := invalidate p.cache [path] } := by
      simp [DeleteFile, hfile]
    rw [hdel]
    simp only [AST]
    rw [cachedQuery_miss "ast" path FeatAST (astBuild path)
      { p with
          files := removeAllA p.files path,
          gen := p.gen + 1,
          cache := invalidate p.cache [path] }
      hfeat hmiss]
    simp [astBuild, lookupA_removeAllA]
  · intro fnew hpn
    rw [Snapshot_eq]
    simp only [AST, PutFile]
    rw [cachedQuery_miss "ast" path FeatAST (astBuild path)
      { p with
          files := (path, fnew) :: removeAllA p.files path,
          gen := p.gen + 1,
          cache := invalidate p.cache [path] }
      hfeat hmiss]
    simp [astBuild, lookupA, hpn, freshId]

/-- Concrete project for the C1 witness: the two-file test project after
one `AST` query on `main.spx`. -/
def pC1 : Project :=
  (AST (NewProject [("main.spx", ⟨"echo 100"⟩), ("bar.spx", ⟨"echo 200"⟩)] FeatAll)
    "main.spx").2

/-- Built `ast` entry of the C1 witness project. -/
def eC1 : Entry := ⟨some ⟨.astOf "echo 100", 3⟩, none, 0⟩

/-- Witness for C1 on the test scenario, with the put-on-snapshot part
instantiated at the content `"echo 300"`. -/
theorem c1_snapshot_isolation_w :
    findEntry pC1.cache "ast" "main.spx" = some eC1 ∧
    lookupA pC1.files "main.spx" = some ⟨"echo 100"⟩ ∧
    parseOK "echo 300" = true ∧
    AST (Snapshot pC1) "main.spx" = ((eC1.val, eC1.err), Snapshot pC1) ∧
    (AST ((DeleteFile pC1 "main.spx").2) "main.spx").1 = (none, some fsErrNotExist) ∧
    (AST (PutFile (Snapshot pC1) "main.spx" ⟨"echo 300"⟩) "main.spx").1 =
      (some ⟨.astOf "echo 300", freshId pC1⟩, none) ∧
    AST pC1 "main.spx" = ((eC1.val, eC1.err), pC1) :=
  ⟨by decide, by decide, by decide,
   (c1_snapshot_isolation pC1 "main.spx" eC1 ⟨"echo 100"⟩ (by decide) (by decide)
     (by decide)).1,
   (c1_snapshot_isolation pC1 "main.spx" eC1 ⟨"echo 100"⟩ (by decide) (by decide)
     (by decide)).2.1,
   (c1_snapshot_isolation pC1 "main.spx" eC1 ⟨"echo 100"⟩ (by decide) (by decide)
     (by decide)).2.2.1 ⟨"echo 300"⟩ (by decide),
   (c1_snapshot_isolation pC1 "main.spx" eC1 ⟨"echo 100"⟩ (by decide) (by decide)
     (by decide)).2.2.2⟩

/-- Consistency of `ast` entries with the file store: an entry cached
for an absent path can only be the memoized `does-not-exist` result.
Every project reachable by the model's operations satisfies this. -/
def astConsistent (p : Project) : Prop :=
  ∀ kv ∈ p.cache, kv.1.1 = "ast" →
    (lookupA p.files kv.1.2).isSome = true ∨
    (kv.2.val = none ∧ kv.2.err = some fsErrNotExist)

instance (p : Project) : Decidable (astConsistent p) := by
  unfold astConsistent
  infer_instance

theorem visitPaths_all (f : String → Bool) (l : List String)
    (h : ∀ x ∈ l, f x = true) : visitPaths f l = l := by
  induction l with
  | nil => rfl
  | cons x rest ih =>
    simp only [visitPaths]
    rw [if_pos (h x (List.mem_cons_self x rest)),
      ih (fun y hy => h y (List.mem_cons_of_mem x hy))]

theorem visitPaths_stop (f : String → Bool) (x : String) (init tail : List String)
    (hinit : ∀ y ∈ init, f y = true) (hx : f x = false) :
    visitPaths f (init ++ x :: tail) = init ++ [x] := by
  induction init with
  | nil => simp [visitPaths, hx]
  | cons y rest ih =>
    have hy : f y = true := hinit y (List.mem_cons_self y rest)
    show visitPaths f (y :: (rest ++ x :: tail)) = (y :: rest) ++ [x]
    simp only [visitPaths]
    rw [if_pos hy, ih (fun z hz => hinit z (List.mem_cons_of_mem y hz))]
    rfl

theorem visitItems_all (g : String → FileImpl → Bool) (l : List (String × FileImpl))
    (h : ∀ kv ∈ l, g kv.1 kv.2 = true) : visitItems g l = l := by
  induction l with
  | nil => rfl
  | cons kv rest ih =>
    simp only [visitItems]
    rw [if_pos (h kv (List.mem_cons_self kv rest)),
      ih (fun z hz => h z (List.mem_cons_of_mem kv hz))]

theorem visitItems_stop (g : String → FileImpl → Bool) (kv : String × FileImpl)
    (init tail : List (String × FileImpl))
    (hinit : ∀ z ∈ init, g z.1 z.2 = true) (hkv : g kv.1 kv.2 = false) :
    visitItems g (init ++ kv :: tail) = init ++ [kv] := by
  induction init with
  | nil => simp [visitItems, hkv]
  | cons z rest ih =>
    have hz : g z.1 z.2 = true := hinit z (List.mem_cons_self z rest)
    show visitItems g (z :: (rest ++ kv :: tail)) = (z :: rest) ++ [kv]
    simp only [visitItems]
    rw [if_pos hz, ih (fun w hw => hinit w (List.mem_cons_of_mem z hw))]
    rfl

/-- C5: `UpdateFiles(m)` makes the file store exactly `m`: a subsequent
`AST` on any path absent from `m` reports `does-not-exist`, any path
present in `m` afterwards carries and re-parses `m`'s content, and a
full `RangeFiles` traversal counts exactly `m`'s size. -/
theorem c5_updateFiles (p : Project) (m : List (String × FileImpl))
    (hfeat : ¬ p.feats &&& FeatAST = 0)
    (hcons : astConsistent p)
    (_hnd : (m.map Prod.fst).Nodup) :
    (∀ path, lookupA m path = none →
      (AST (UpdateFiles p m) path).1 = (none, some fsErrNotExist)) ∧
    (∀ path f, lookupA m path = some f →
      lookupA (UpdateFiles p m).files path = some f ∧
      (AST (UpdateFiles p m) path).1 =
        (if parseOK f.content then (some ⟨.astOf f.content, freshId p⟩, none)
         else (none, some ⟨"parse error", freshId p⟩))) ∧
    (RangeFiles (UpdateFiles p m) (fun _ => true)).length = m.length := by
  refine ⟨?_, ?_, ?_⟩
  · intro path hnone
    cases hfe : findEntry (invalidate p.cache (p.files.map Prod.fst ++ m.map Prod.fst))
        "ast" path with
    | none =>
      simp only [UpdateFiles, AST]
      rw [cachedQuery_miss "ast" path FeatAST (astBuild path)
        { p with
            files := m,
            gen := p.gen + 1,
            cache := invalidate p.cache (p.files.map Prod.fst ++ m.map Prod.fst) }
        hfeat hfe]
      simp [astBuild, hnone]
    | some e2 =>
      obtain ⟨hmem, hnotin⟩ := findEntry_invalidate_some _ _ _ _ _ hfe
      have hold : path ∉ p.files.map Prod.fst :=
        fun hx => hnotin (List.mem_append_left _ hx)
      rcases hcons (("ast", path), e2) hmem rfl with hs | ⟨hv, he⟩
      · rw [lookupA_none_of_not_mem p.files path hold] at hs
        cases hs
      · simp only [UpdateFiles, AST]
        rw [cachedQuery_hit "ast" path FeatAST (astBuild path)
          { p with
              files := m,
              gen := p.gen + 1,
              cache := invalidate p.cache (p.files.map Prod.fst ++ m.map Prod.fst) }
          e2 hfeat hfe]
        rw [show e2.val = none from hv, show e2.err = some fsErrNotExist from he]
  · intro path f hsome
    have hin : path ∈ m.map Prod.fst := mem_keys_of_lookupA m path f hsome
    have hfe : findEntry (invalidate p.cache (p.files.map Prod.fst ++ m.map Prod.fst))
        "ast" path = none :=
      findEntry_invalidate_of_mem _ _ _ _ (List.mem_append_right _ hin)
    refine ⟨hsome, ?_⟩
    simp only [UpdateFiles, AST]
    rw [cachedQuery_miss "ast" path FeatAST (astBuild path)
      { p with
          files := m,
          gen := p.gen + 1,
          cache := invalidate p.cache (p.files.map Prod.fst ++ m.map Prod.fst) }
      hfeat hfe]
    by_cases hp : parseOK f.content = true <;>
      simp [astBuild, hsome, hp, freshId]
  · show (visitPaths (fun _ => true) (m.map Prod.fst)).length = m.length
    rw [visitPaths_all (fun _ => true) (m.map Prod.fst) (fun x _ => rfl)]
    exact List.length_map m Prod.fst

/-- Concrete project for the C5 witness: the test project of
`TestUpdateFiles`. -/
def pC5 : Project :=
  NewProject [("main.spx", ⟨"echo 100"⟩), ("bar.spx", ⟨"echo 200"⟩)] FeatAll

/-- The new file map of `TestUpdateFiles`. -/
def mC5 : List (String × FileImpl) :=
  [("main.spx", ⟨"echo 300"⟩), ("third.spx", ⟨"echo 400"⟩)]

/-- Witness for C5 on the `TestUpdateFiles` scenario: `bar.spx` is gone,
`main.spx` and `third.spx` re-parse to the new contents, and two files
remain. -/
theorem c5_updateFiles_w :
    lookupA mC5 "bar.spx" = none ∧
    lookupA mC5 "main.spx" = some ⟨"echo 300"⟩ ∧
    (AST (UpdateFiles pC5 mC5) "bar.spx").1 = (none, some fsErrNotExist) ∧
    lookupA (UpdateFiles pC5 mC5).files "main.spx" = some ⟨"echo 300"⟩ ∧
    (AST (UpdateFiles pC5 mC5) "main.spx").1 =
      (some ⟨.astOf "echo 300", freshId pC5⟩, none) ∧
    (AST (UpdateFiles pC5 mC5) "third.spx").1 =
      (some ⟨.astOf "echo 400", freshId pC5⟩, none) ∧
    (RangeFiles (UpdateFiles pC5 mC5) (fun _ => true)).length = 2 :=
  ⟨by decide, by decide,
   (c5_updateFiles pC5 mC5 (by decide) (by decide) (by decide)).1 "bar.spx" (by decide),
   ((c5_updateFiles pC5 mC5 (by decide) (by decide) (by decide)).2.1 "main.spx"
     ⟨"echo 300"⟩ (by decide)).1,
   ((c5_updateFiles pC5 mC5 (by decide) (by decide) (by decide)).2.1 "main.spx"
     ⟨"echo 300"⟩ (by decide)).2,
   ((c5_updateFiles pC5 mC5 (by decide) (by decide) (by decide)).2.1 "third.spx"
     ⟨"echo 400"⟩ (by decide)).2,
   (c5_updateFiles pC5 mC5 (by decide) (by decide) (by decide)).2.2⟩

/-- C8 (amended): `RangeFiles` and `RangeFileContents` take visitors
returning a continue boolean — visiting everything while the visitor
keeps returning `true` and ending the traversal at the first element on
which it returns `false` — while `RangeASTFiles` takes a visitor with no
boolean result, so its traversal does not depend on the visitor and is
never cut short. -/
theorem c8_amended_range (p : Project) (f : String → Bool)
    (g : String → FileImpl → Bool) (u v : String → Value → Unit) :
    ((∀ y ∈ p.files.map Prod.fst, f y = true) →
      RangeFiles p f = p.files.map Prod.fst) ∧
    (∀ init x tail, p.files.map Prod.fst = init ++ x :: tail →
      (∀ y ∈ init, f y = true) → f x = false → RangeFiles p f = init ++ [x]) ∧
    ((∀ kv ∈ p.files, g kv.1 kv.2 = true) → RangeFileContents p g = p.files) ∧
    (∀ init kv tail, p.files = init ++ kv :: tail →
      (∀ z ∈ init, g z.1 z.2 = true) → g kv.1 kv.2 = false →
      RangeFileContents p g = init ++ [kv]) ∧
    (RangeASTFiles p u).1 = (RangeASTFiles p v).1 := by
  refine ⟨?_, ?_, ?_, ?_, rfl⟩
  · intro h
    exact visitPaths_all f _ h
  · intro init x tail heq hinit hx
    unfold RangeFiles
    rw [heq]
    exact visitPaths_stop f x init tail hinit hx
  · intro h
    exact visitItems_all g _ h
  · intro init kv tail heq hinit hkv
    unfold RangeFileContents
    rw [heq]
    exact visitItems_stop g kv init tail hinit hkv

/-- Concrete two-file project for the C8 counterexample. -/
def pC8 : Project :=
  NewProject [("a.spx", ⟨"echo 1"⟩), ("b.spx", ⟨"echo 2"⟩)] FeatAll

/-- C8 counterexample: the claim says all three `Range…` operations take
a boolean-returning visitor so that returning `false` ends the
iteration early.  On a two-file project an always-`false` visitor indeed
stops `RangeFiles` and `RangeFileContents` after one element, but
`RangeASTFiles`'s visitor returns no boolean (its callers in
`gop/goputil/goputil.go` pass visitors with no result), and its
traversal always covers both files. -/
theorem c8_rangeast_no_early_stop :
    (RangeFiles pC8 (fun _ => false)).length = 1 ∧
    (RangeFileContents pC8 (fun _ _ => false)).length = 1 ∧
    (RangeASTFiles pC8 (fun _ _ => ())).1.length = 2 := by
  decide

/-- Concrete three-file project for the C8 witness. -/
def pC8w : Project :=
  NewProject [("a.spx", ⟨"echo 1"⟩), ("b.spx", ⟨"echo 2"⟩), ("c.spx", ⟨"echo 3"⟩)]
    FeatAll

/-- Visitor for the C8 witness that continues only on `a.spx`. -/
def fC8 : String → Bool := fun s => decide (s = "a.spx")

/-- Pair visitor for the C8 witness that continues only on `a.spx`. -/
def gC8 : String → FileImpl → Bool := fun s _ => decide (s = "a.spx")

/-- Witness for the amended C8: the visitor returns `false` on the
second of three files, so exactly the first two are visited. -/
theorem c8_amended_range_w :
    RangeFiles pC8w fC8 = ["a.spx"] ++ ["b.spx"] ∧
    RangeFileContents pC8w gC8 = [("a.spx", ⟨"echo 1"⟩)] ++ [("b.spx", ⟨"echo 2"⟩)] ∧
    (RangeASTFiles pC8w (fun _ _ => ())).1 = (RangeASTFiles pC8w (fun _ _ => ())).1 :=
  ⟨(c8_amended_range pC8w fC8 gC8 (fun _ _ => ()) (fun _ _ => ())).2.1
      ["a.spx"] "b.spx" ["c.spx"] (by decide) (by decide) (by decide),
   (c8_amended_range pC8w fC8 gC8 (fun _ _ => ()) (fun _ _ => ())).2.2.2.1
      [("a.spx", ⟨"echo 1"⟩)] ("b.spx", ⟨"echo 2"⟩) [("c.spx", ⟨"echo 3"⟩)]
      (by decide) (by decide) (by decide),
   (c8_amended_range pC8w fC8 gC8 (fun _ _ => ()) (fun _ _ => ())).2.2.2.2⟩

/-- Concrete project for the C7 witness. -/
def pC7 : Project :=
  NewProject [("main.spx", ⟨"echo 100"⟩), ("bar.spx", ⟨"echo 200"⟩)] FeatAll

/-- Witness for C7: delete `main.spx` twice on the test project. -/
theorem c7_delete_idempotent_w :
    (DeleteFile pC7 "main.spx").1 = none ∧
    lookupA ((DeleteFile pC7 "main.spx").2).files "main.spx" = none ∧
    (DeleteFile ((DeleteFile pC7 "main.spx").2) "main.spx").1 = some fsErrNotExist :=
  c7_delete_idempotent pC7 "main.spx" ⟨"echo 100"⟩ (by decide)

/-- Splitting a list without the separator yields one piece. -/
theorem charSplit_no_sep (sep : Char) (l : List Char) (h : sep ∉ l) :
    charSplit sep l = [l] := by
  induction l with
  | nil => rfl
  | cons a rest ih =>
    have ha : ¬ a = sep := fun e => h (e ▸ List.mem_cons_self a rest)
    have hr : sep ∉ rest := fun hm => h (List.mem_cons_of_mem _ hm)
    simp [charSplit, ha, ih hr]

/-- Splitting peels off a separator-free first component. -/
theorem charSplit_append (sep : Char) (l1 l2 : List Char) (h : sep ∉ l1) :
    charSplit sep (l1 ++ sep :: l2) = l1 :: charSplit sep l2 := by
  induction l1 with
  | nil => simp [charSplit]
  | cons a rest ih =>
    have ha : ¬ a = sep := fun e => h (e ▸ List.mem_cons_self a rest)
    have hr : sep ∉ rest := fun hm => h (List.mem_cons_of_mem _ hm)
    simp [charSplit, ha, ih hr]

/-- C10: for every spx resource ID whose name components are non-empty
and slash-free, and which pass through URL parsing unchanged (the URL
parser returns the constructed scheme, host and path exactly — ruling
out `?`, `#`, `%`-escapes and control characters, which `net/url.Parse`
would strip, decode or reject) and through `path.Clean` unchanged,
`ParseSpxResourceURI` applied to the ID's `URI()` returns the original
ID with no error. -/
theorem c10_uri_roundtrip (id : SpxResourceID)
    (hn : idNamesOK id)
    (hu : urlParse (SpxResourceID.uri id) = some ("spx", "resources", uriPath id))
    (hc : pathClean (uriPath id) = uriPath id) :
    ParseSpxResourceURI (SpxResourceID.uri id) = some id := by
  unfold ParseSpxResourceURI
  rw [hu]
  cases id with
  | backdrop n =>
    obtain ⟨_hne, hsl⟩ := hn
    obtain ⟨l⟩ := n
    show parseSpxURL ("spx", "resources",
        ⟨'/' :: ("backdrops".data ++ '/' :: l)⟩) = some (.backdrop ⟨l⟩)
    have hc2 : pathClean ⟨'/' :: ("backdrops".data ++ '/' :: l)⟩ =
        ⟨'/' :: ("backdrops".data ++ '/' :: l)⟩ := hc
    simp only [parseSpxURL, trimLeadSlash]
    rw [charSplit_append '/' ("backdrops".data) l (by decide),
      charSplit_no_sep '/' l (by simpa using hsl)]
    simp
    exact hc2
  | sound n =>
    obtain ⟨_hne, hsl⟩ := hn
    obtain ⟨l⟩ := n
    show parseSpxURL ("spx", "resources",
        ⟨'/' :: ("sounds".data ++ '/' :: l)⟩) = some (.sound ⟨l⟩)
    have hc2 : pathClean ⟨'/' :: ("sounds".data ++ '/' :: l)⟩ =
        ⟨'/' :: ("sounds".data ++ '/' :: l)⟩ := hc
    simp only [parseSpxURL, trimLeadSlash]
    rw [charSplit_append '/' ("sounds".data) l (by decide),
      charSplit_no_sep '/' l (by simpa using hsl)]
    simp
    exact hc2
  | sprite n =>
    obtain ⟨_hne, hsl⟩ := hn
    obtain ⟨l⟩ := n
    show parseSpxURL ("spx", "resources",
        ⟨'/' :: ("sprites".data ++ '/' :: l)⟩) = some (.sprite ⟨l⟩)
    have hc2 : pathClean ⟨'/' :: ("sprites".data ++ '/' :: l)⟩ =
        ⟨'/' :: ("sprites".data ++ '/' :: l)⟩ := hc
    simp only [parseSpxURL, trimLeadSlash]
    rw [charSplit_append '/' ("sprites".data) l (by decide),
      charSplit_no_sep '/' l (by simpa using hsl)]
    simp
    exact hc2
  | widget n =>
    obtain ⟨_hne, hsl⟩ := hn
    obtain ⟨l⟩ := n
    show parseSpxURL ("spx", "resources",
        ⟨'/' :: ("widgets".data ++ '/' :: l)⟩) = some (.widget ⟨l⟩)
    have hc2 : pathClean ⟨'/' :: ("widgets".data ++ '/' :: l)⟩ =
        ⟨'/' :: ("widgets".data ++ '/' :: l)⟩ := hc
    simp only [parseSpxURL, trimLeadSlash]
    rw [charSplit_append '/' ("widgets".data) l (by decide),
      charSplit_no_sep '/' l (by simpa using hsl)]
    simp
    exact hc2
  | spriteCostume s c =>
    obtain ⟨⟨_hs, hsl⟩, _hc, hcl⟩ := hn
    obtain ⟨ls⟩ := s
    obtain ⟨lc⟩ := c
    show parseSpxURL ("spx", "resources",
        ⟨'/' :: ("sprites".data ++ '/' ::
          (ls ++ '/' :: ("costumes".data ++ '/' :: lc)))⟩) =
      some (.spriteCostume ⟨ls⟩ ⟨lc⟩)
    have hc2 : pathClean ⟨'/' :: ("sprites".data ++ '/' ::
          (ls ++ '/' :: ("costumes".data ++ '/' :: lc)))⟩ =
        ⟨'/' :: ("sprites".data ++ '/' ::
          (ls ++ '/' :: ("costumes".data ++ '/' :: lc)))⟩ := hc
    simp only [parseSpxURL, trimLeadSlash]
    rw [charSplit_append '/' ("sprites".data) _ (by decide),
      charSplit_append '/' ls _ (by simpa using hsl),
      charSplit_append '/' ("costumes".data) _ (by decide),
      charSplit_no_sep '/' lc (by simpa using hcl)]
    simp
    exact hc2
  | spriteAnimation s a =>
    obtain ⟨⟨_hs, hsl⟩, _ha, hal⟩ := hn
    obtain ⟨ls⟩ := s
    obtain ⟨la⟩ := a
    show parseSpxURL ("spx", "resources",
        ⟨'/' :: ("sprites".data ++ '/' ::
          (ls ++ '/' :: ("animations".data ++ '/' :: la)))⟩) =
      some (.spriteAnimation ⟨ls⟩ ⟨la⟩)
    have hc2 : pathClean ⟨'/' :: ("sprites".data ++ '/' ::
          (ls ++ '/' :: ("animations".data ++ '/' :: la)))⟩ =
        ⟨'/' :: ("sprites".data ++ '/' ::
          (ls ++ '/' :: ("animations".data ++ '/' :: la)))⟩ := hc
    simp only [parseSpxURL, trimLeadSlash]
    rw [charSplit_append '/' ("sprites".data) _ (by decide),
      charSplit_append '/' ls _ (by simpa using hsl),
      charSplit_append '/' ("animations".data) _ (by decide),
      charSplit_no_sep '/' la (by simpa using hal)]
    simp
    exact hc2

/-- Concrete resource ID for the C10 witness. -/
def idC10 : SpxResourceID := .spriteCostume "hero" "walk"

/-- Witness for C10 on a sprite costume ID. -/
theorem c10_uri_roundtrip_w :
    idNamesOK idC10 ∧
    urlParse (SpxResourceID.uri idC10) = some ("spx", "resources", uriPath idC10) ∧
    pathClean (uriPath idC10) = uriPath idC10 ∧
    ParseSpxResourceURI (SpxResourceID.uri idC10) = some idC10 :=
  ⟨by decide, by decide, by decide,
   c10_uri_roundtrip idC10 (by decide) (by decide) (by decide)⟩

end GoxlswModel
